import Mathlib

/-!
Verification development for the referee-database application
(`src/referee_database_app.py`).  Tables are embedded as dataframes with a
column list and rows of optional string cells (a `none` cell models a pandas
missing value); the domain tables that the pages manipulate with fixed column
sets are additionally embedded as structures with one string field per column.
Remote (GitHub) interaction outcomes are oracle parameters, since the network
is external to the program.
-/

/-- Embedding of a pandas DataFrame: a list of column labels and rows of
cells, where a `none` cell is a missing value (NaN). -/
structure DF where
  cols : List String
  rows : List (List (Option String))
deriving Repr, DecidableEq

/-- Well-formedness: every row has exactly one cell per column. -/
def DF.wf (df : DF) : Prop :=
  ∀ r ∈ df.rows, r.length = df.cols.length

instance (df : DF) : Decidable df.wf := by
  unfold DF.wf; infer_instance

/-- Lookup of the cell of `row` under column `c`, walking the column list and
the row in parallel; `none` means the column is absent (or the row is ragged),
`some cell` returns the cell, which may itself be a missing value. -/
def getEntry : List String → List (Option String) → String → Option (Option String)
  | [], _, _ => none
  | _ :: _, [], _ => none
  | c :: cs, v :: vs, t => if c = t then some v else getEntry cs vs t

/-- String view of a cell, as the pages read it after `load_csv` has replaced
all missing values by the empty string. -/
def getStr (cols : List String) (row : List (Option String)) (c : String) : String :=
  ((getEntry cols row c).getD none).getD ""

/-- Replacement of the cell of the first column named `c` by `f` applied to
it, leaving every other cell unchanged. -/
def mapColAux (f : Option String → Option String) :
    List String → List (Option String) → String → List (Option String)
  | [], r, _ => r
  | _ :: _, [], _ => []
  | c :: cs, v :: vs, t => if c = t then f v :: vs else v :: mapColAux f cs vs t

/-- Column update `df[c] = df[c].map f` for an existing column `c`. -/
def DF.mapCol (df : DF) (c : String) (f : Option String → Option String) : DF :=
  { df with rows := df.rows.map (fun r => mapColAux f df.cols r c) }

/-- Column assignment `df[c] = v` with a fresh column label `c`: the label is
appended and every row receives the string cell `v`. -/
def DF.addCol (df : DF) (c : String) (v : String) : DF :=
  { cols := df.cols ++ [c], rows := df.rows.map (fun r => r ++ [some v]) }

/-- Column assignment `df[c] = df.apply(f, axis=1)`: overwrite the column if
present, append it otherwise. -/
def DF.assignComputed (df : DF) (c : String) (f : List (Option String) → Option String) : DF :=
  if c ∈ df.cols then
    { df with rows := df.rows.map (fun r => mapColAux (fun _ => f r) df.cols r c) }
  else
    { cols := df.cols ++ [c], rows := df.rows.map (fun r => r ++ [f r]) }

/-- Embedding of `df.fillna("")`: every missing cell becomes the empty
string. -/
def DF.fillna (df : DF) : DF :=
  { df with rows := df.rows.map (fun r => r.map (fun cell => some (cell.getD ""))) }

/-- Boolean row filter `df[mask]`. -/
def DF.filterRows (df : DF) (p : List (Option String) → Bool) : DF :=
  { df with rows := df.rows.filter p }

/-- Insertion of `x` into a list sorted by the boolean relation `le`
(stable: `x` goes after equal elements seen first). -/
def insSorted (le : α → α → Bool) (x : α) : List α → List α
  | [] => [x]
  | y :: ys => if le x y then x :: y :: ys else y :: insSorted le x ys

/-- Stable insertion sort by the boolean relation `le`, embedding
`sort_values`. -/
def insSortBy (le : α → α → Bool) : List α → List α
  | [] => []
  | x :: xs => insSorted le x (insSortBy le xs)

/-- Lexicographic comparison of two string pairs, the order used by
`sort_values(by=["first_name", "last_name"])`. -/
def pairLe (a b : String × String) : Bool :=
  a.1 < b.1 || (a.1 = b.1 && a.2 ≤ b.2)

-- =========================
-- Fixed column sets (source: REFEREE_COLS, EVENT_COLS, AVAIL_COLS, ASSIGN_COLS)
-- =========================

def REFEREE_COLS : List String :=
  ["ref_id", "first_name", "last_name", "gender", "nationality", "zone",
   "birthdate", "fivb_id", "email", "phone", "origin_airport", "position_type",
   "cc_role", "ref_level", "course_year", "photo_file", "passport_file",
   "shirt_size", "shorts_size", "active", "type"]

def EVENT_COLS : List String :=
  ["event_id", "season", "start_date", "end_date", "event_name", "location",
   "destination_airport", "arrival_date", "departure_date", "requires_availability"]

def AVAIL_COLS : List String :=
  ["avail_id", "ref_id", "season", "event_id", "available", "airfare_estimate",
   "timestamp"]

def ASSIGN_COLS : List String :=
  ["assign_id", "ref_id", "event_id", "position"]

/-- ASCII lowercasing of a character, embedding Python `str.lower()` on the
ASCII tokens the application compares ("True"/"False" and the import
tokens). -/
def lowerChar (c : Char) : Char :=
  if 'A' ≤ c ∧ c ≤ 'Z' then Char.ofNat (c.toNat + 32) else c

/-- ASCII lowercasing of a string, embedding Python `str.lower()`. -/
def lowerStr (s : String) : String :=
  String.mk (s.toList.map lowerChar)

-- =========================
-- Domain query layer: get_status (source lines 1971-1983)
-- =========================

/-- Embedding of `get_status` from `page_admin_availability`: the status of a
merged (official, event) row, given the set of assignment pairs
`set(zip(season_assign["ref_id"], season_assign["event_id"]))`. -/
def get_status (assign_pairs : List (String × String))
    (ref_id event_id available : String) : String :=
  if (ref_id, event_id) ∈ assign_pairs then "Nominated"
  else if lowerStr available = "true" then "Available"
  else if lowerStr available = "false" then "Not Available"
  else "Unknown"

-- =========================
-- Blob store client: github_write_file (source lines 117-158) and
-- save_csv (source lines 196-216)
-- =========================

/-- GitHub configuration as returned by `github_config` when token, owner and
repository are all present. -/
structure GHConfig where
  token : String
  owner : String
  repo : String
  branch : String
deriving Repr, DecidableEq

/-- Outcome of the GET that `github_write_file` issues to fetch the current
SHA of the target path: an HTTP response carrying the optional "sha" field of
its JSON body, or a raised network exception. -/
inductive GetShaOutcome where
  | resp (status : Nat) (shaField : Option String)
  | exn
deriving Repr, DecidableEq

/-- Outcome of the PUT that `github_write_file` issues: an HTTP status, or a
raised network exception. -/
inductive PutOutcome where
  | resp (status : Nat)
  | exn
deriving Repr, DecidableEq

/-- Failure of the remote write: any non-2xx response or an exception (the
source treats only statuses 200 and 201 as success). -/
def PutOutcome.failed : PutOutcome → Prop
  | .resp status => ¬(status = 200 ∨ status = 201)
  | .exn => True

/-- Embedding of the SHA-fetch step of `github_write_file`: the "sha" field
of the body on a 200 response, absent on any other status (404 included) or
exception. -/
def fetchedSha : GetShaOutcome → Option String
  | .resp status shaField => if status = 200 then shaField else none
  | .exn => none

/-- Embedding of the `if sha: payload["sha"] = sha` truthiness check: the
payload carries the fetched SHA exactly when it is a non-empty string. -/
def payloadSha (g : GetShaOutcome) : Option String :=
  match fetchedSha g with
  | some s => if s = "" then none else some s
  | none => none

/-- Payload of the contents-API PUT built by `github_write_file`; the base64
transport encoding of `content` is elided (it is a bijection). -/
structure Payload where
  message : String
  content : String
  branch : String
  sha : Option String
deriving Repr, DecidableEq

/-- File stores: local working directory and remote mirror, each a partial
map from path to file content. -/
structure World where
  localFiles : String → Option String
  remoteFiles : String → Option String

/-- Pointwise update of a file store. -/
def updateFile (f : String → Option String) (k v : String) : String → Option String :=
  fun x => if x = k then some v else f x

/-- Embedding of `github_write_file`: with no configuration it is a no-op;
otherwise it fetches the current SHA, builds the payload, and issues the PUT,
whose failure is swallowed. Returns the payload sent (if any) and the
resulting world; the function is total, modelling that no exception
propagates. -/
def github_write_file (cfg : Option GHConfig) (w : World) (path content message : String)
    (getOutcome : GetShaOutcome) (putOutcome : PutOutcome) : Option Payload × World :=
  match cfg with
  | none => (none, w)
  | some c =>
    let payload : Payload :=
      { message := message, content := content, branch := c.branch,
        sha := payloadSha getOutcome }
    match putOutcome with
    | .resp status =>
        if status = 200 ∨ status = 201 then
          (some payload, { w with remoteFiles := updateFile w.remoteFiles path content })
        else (some payload, w)
    | .exn => (some payload, w)

/-- Rendering of a dataframe as CSV text (`df.to_csv(index=False)`); cell
quoting is elided at this model granularity. -/
def serializeDF (df : DF) : String :=
  String.intercalate "," df.cols ++ "\n" ++
    String.intercalate "\n"
      (df.rows.map (fun r => String.intercalate "," (r.map (fun cell => cell.getD ""))))

/-- Embedding of `os.path.basename` for forward-slash paths. -/
def basename (p : String) : String :=
  (p.splitOn "/").getLastD ""

/-- Embedding of `save_csv`: write the local copy, then, if GitHub is
configured, attempt the remote mirror write whose failure is swallowed. The
function is total, modelling that no exception propagates to the caller. -/
def save_csv (cfg : Option GHConfig) (w : World) (path : String) (df : DF)
    (getOutcome : GetShaOutcome) (putOutcome : PutOutcome) : World :=
  let w1 : World := { w with localFiles := updateFile w.localFiles path (serializeDF df) }
  match cfg with
  | none => w1
  | some _ =>
    (github_write_file cfg w1 path (serializeDF df)
      ("Update " ++ basename path ++ " via referee app") getOutcome putOutcome).2

-- =========================
-- Tabular persistence layer: load_csv (source lines 161-193)
-- =========================

/-- Embedding of the three-tier resolution of `load_csv`: `remote = some df`
models a configured GitHub whose content was fetched and parsed successfully;
`remote = none` collapses the unconfigured, content-absent and parse-failure
cases, all of which leave `df` unset in the source; `localFile` likewise
models the parsed local file when present. The final fallback is an empty
table with the expected columns. -/
def resolveLoad (remote localFile : Option DF) (columns : List String) : DF :=
  match remote with
  | some df => df
  | none =>
    match localFile with
    | some df => df
    | none => { cols := columns, rows := [] }

/-- Embedding of the `for c in columns: if c not in df.columns: df[c] = ""`
loop of `load_csv`. -/
def ensureCols (df : DF) : List String → DF
  | [] => df
  | c :: rest => ensureCols (if c ∈ df.cols then df else df.addCol c "") rest

/-- Embedding of `load_csv`: resolve the source, complete the expected
columns, and normalize missing cells to the empty string. -/
def load_csv (remote localFile : Option DF) (columns : List String) : DF :=
  (ensureCols (resolveLoad remote localFile columns) columns).fillna


-- =========================
-- Events table date normalization: load_events (source lines 307-312)
-- =========================

/-- Numeric value of an ASCII digit character. -/
def digitVal (c : Char) : Nat := c.toNat - 48

/-- Parsing of a "YYYY-MM-DD" shaped string into raw year, month and day
numbers; the calendar-validity check follows in `parseDate`. This models the
parser behind `pd.to_datetime(..., errors="coerce")` for the ISO strings the
application itself writes (`date.isoformat()`). -/
def parseYMD (s : String) : Option (Nat × Nat × Nat) :=
  match s.toList with
  | [y1, y2, y3, y4, s1, m1, m2, s2, d1, d2] =>
    if s1 = '-' && s2 = '-' && ([y1, y2, y3, y4, m1, m2, d1, d2].all Char.isDigit) then
      some (((digitVal y1 * 10 + digitVal y2) * 10 + digitVal y3) * 10 + digitVal y4,
        digitVal m1 * 10 + digitVal m2, digitVal d1 * 10 + digitVal d2)
    else none
  | _ => none

/-- Gregorian leap-year test. -/
def isLeapYear (y : Nat) : Bool :=
  (y % 4 == 0 && !(y % 100 == 0)) || y % 400 == 0

/-- Number of days of month `m` in year `y`. -/
def daysInMonth (y m : Nat) : Nat :=
  if m = 2 then (if isLeapYear y then 29 else 28)
  else if m = 4 ∨ m = 6 ∨ m = 9 ∨ m = 11 then 30
  else 31

/-- Parsing of an ISO calendar date, `none` on anything unparsable. -/
def parseDate (s : String) : Option (Nat × Nat × Nat) :=
  match parseYMD s with
  | some (y, m, d) =>
    if 1 ≤ m ∧ m ≤ 12 ∧ 1 ≤ d ∧ d ≤ daysInMonth y m then some (y, m, d) else none
  | none => none

/-- Two-digit zero padding. -/
def pad2 (n : Nat) : String := if n < 10 then "0" ++ toString n else toString n

/-- Four-digit zero padding. -/
def pad4 (n : Nat) : String :=
  if n < 10 then "000" ++ toString n
  else if n < 100 then "00" ++ toString n
  else if n < 1000 then "0" ++ toString n
  else toString n

/-- ISO-8601 rendering of a calendar date, as `date.isoformat()` and
`.dt.date.astype(str)` produce it. -/
def formatIso (y m d : Nat) : String :=
  pad4 y ++ "-" ++ pad2 m ++ "-" ++ pad2 d

/-- Embedding of one cell of
`pd.to_datetime(df[col], errors="coerce").dt.date.astype(str)`: a parsable
date is re-formatted as an ISO string; anything else (the empty string
included) becomes the literal string "NaT", since the coerced missing value
renders as "NaT" under `astype(str)`. -/
def normalizeDateCell (s : String) : String :=
  match parseDate s with
  | some (y, m, d) => formatIso y m d
  | none => "NaT"

/-- Cell transformer applied to each of the four date columns. -/
def normCell (cell : Option String) : Option String :=
  some (normalizeDateCell (cell.getD ""))

/-- The four date-like columns normalized by `load_events`. -/
def eventDateCols : List String :=
  ["start_date", "end_date", "arrival_date", "departure_date"]

/-- Embedding of the date-normalization loop of `load_events` (the
`if not df.empty` guard and the four column re-assignments, unrolled). -/
def normalizeEventDates (df : DF) : DF :=
  if df.rows.isEmpty then df
  else
    ((((df.mapCol "start_date" normCell).mapCol "end_date" normCell).mapCol
      "arrival_date" normCell).mapCol "departure_date" normCell)

/-- Embedding of `load_events`. -/
def load_events (remote localFile : Option DF) : DF :=
  normalizeEventDates (load_csv remote localFile EVENT_COLS)


-- =========================
-- Domain rows: the four tables with their fixed column sets as structures
-- =========================

/-- Row of the Officials table (REFEREE_COLS). -/
structure OfficialRow where
  ref_id : String
  first_name : String
  last_name : String
  gender : String
  nationality : String
  zone : String
  birthdate : String
  fivb_id : String
  email : String
  phone : String
  origin_airport : String
  position_type : String
  cc_role : String
  ref_level : String
  course_year : String
  photo_file : String
  passport_file : String
  shirt_size : String
  shorts_size : String
  active : String
  type : String
deriving Repr, DecidableEq

/-- Row of the Events table (EVENT_COLS). -/
structure EventRow where
  event_id : String
  season : String
  start_date : String
  end_date : String
  event_name : String
  location : String
  destination_airport : String
  arrival_date : String
  departure_date : String
  requires_availability : String
deriving Repr, DecidableEq

/-- Row of the Availability table (AVAIL_COLS). -/
structure AvailRow where
  avail_id : String
  ref_id : String
  season : String
  event_id : String
  available : String
  airfare_estimate : String
  timestamp : String
deriving Repr, DecidableEq

/-- Row of the Assignments table (ASSIGN_COLS). -/
structure AssignRow where
  assign_id : String
  ref_id : String
  event_id : String
  position : String
deriving Repr, DecidableEq

/-- Embedding of Python `str.strip()`: remove leading and trailing
whitespace. -/
def stripStr (s : String) : String :=
  String.mk (((s.toList.dropWhile Char.isWhitespace).reverse.dropWhile
    Char.isWhitespace).reverse)

-- =========================
-- Admin referees page: delete flow (source lines 415-466 and 765-791)
-- =========================

/-- Embedding of `referee_display_name` (source line 408): the stripped
first name, last name and nationality rendered as "fn ln - nat", stripped
again. -/
def refereeDisplayName (cols : List String) (r : List (Option String)) : String :=
  stripStr (stripStr (getStr cols r "first_name") ++ " " ++
    stripStr (getStr cols r "last_name") ++ " - " ++
    stripStr (getStr cols r "nationality"))

/-- Embedding of the category filter of `page_admin_referees` (source line
457): any choice other than "All" keeps only rows of that position type. -/
def adminCategoryFilter (refs : DF) (choice : String) : DF :=
  if choice = "All" then refs
  else refs.filterRows (fun r => getStr refs.cols r "position_type" == choice)

/-- Embedding of the frame that `page_admin_referees` holds when the delete
button is reached (source lines 453-463): when the loaded table is
non-empty, the category filter is applied, a computed "display" column is
assigned, and the rows are sorted by first then last name. -/
def adminRefsShown (refs : DF) (choice : String) : DF :=
  if refs.rows.isEmpty then refs
  else
    let filtered := adminCategoryFilter refs choice
    let withDisplay := filtered.assignComputed "display"
      (fun r => some (refereeDisplayName filtered.cols r))
    { withDisplay with
      rows := insSortBy (fun a b => pairLe
        (getStr withDisplay.cols a "first_name", getStr withDisplay.cols a "last_name")
        (getStr withDisplay.cols b "first_name", getStr withDisplay.cols b "last_name"))
        withDisplay.rows }

/-- State persisted by the delete branch of `page_admin_referees`. -/
structure DeleteOfficialResult where
  refs : DF
  avail : List AvailRow
  assigns : List AssignRow
deriving Repr, DecidableEq

/-- Embedding of the delete branch of `page_admin_referees` (source lines
765-791): the shown officials frame minus every row whose ref_id matches is
persisted as the Officials table; the freshly loaded Availability and
Assignments tables are filtered on ref_id and persisted, each only when
non-empty (the `if not ...empty` guards, under which an empty table is left
as it was). -/
def deleteOfficial (refs : DF) (choice id : String)
    (avail : List AvailRow) (assigns : List AssignRow) : DeleteOfficialResult :=
  let shown := adminRefsShown refs choice
  { refs := shown.filterRows (fun r => !(getStr shown.cols r "ref_id" == id)),
    avail := if avail.isEmpty then avail else avail.filter (fun a => a.ref_id != id),
    assigns := if assigns.isEmpty then assigns
      else assigns.filter (fun a => a.ref_id != id) }

-- =========================
-- Availability form (source lines 1693-1876)
-- =========================

/-- Per-event form input gathered by the availability page: the event, the
availability checkbox, and the stripped airfare text. -/
structure AvailInput where
  event_id : String
  available : Bool
  airfare_estimate : String
deriving Repr, DecidableEq

/-- Fresh availability row built at submit time (source lines 1862-1870);
`str(bool(...))` renders the checkbox as "True" or "False". -/
def mkAvailRow (fid rid season now : String) (i : AvailInput) : AvailRow :=
  ⟨fid, rid, season, i.event_id, if i.available then "True" else "False",
    i.airfare_estimate, now⟩

/-- Embedding of the submit branch of `page_availability_form` (source lines
1856-1875): every availability row of the (official, season) pair is
removed, then one fresh row per presented event input is appended; `fresh`
supplies the generated row identifiers. -/
def submitAvailability (avail : List AvailRow) (rid season now : String)
    (fresh : Nat → String) (inputs : List AvailInput) : List AvailRow :=
  (avail.filter (fun a => !(a.ref_id == rid && a.season == season))) ++
    inputs.enum.map (fun p => mkAvailRow (fresh p.1) rid season now p.2)

/-- Display label of an official on the availability form (source lines
1738-1741). -/
def officialDisplay (r : OfficialRow) : String :=
  r.first_name ++ " " ++ r.last_name ++ " (" ++ r.nationality ++ ")"

/-- Officials sorted by first then last name (`sort_values`). -/
def sortOfficials (l : List OfficialRow) : List OfficialRow :=
  insSortBy (fun a b => pairLe (a.first_name, a.last_name)
    (b.first_name, b.last_name)) l

/-- Resolution of the selected official on the availability form: the first
row of the sorted category-filtered list whose display label matches
(`refs_filtered[refs_filtered["display"] == ref_label].iloc[0]`). -/
def resolveSelected (refs : List OfficialRow) (category refLabel : String) :
    Option OfficialRow :=
  (sortOfficials (refs.filter (fun r => r.position_type == category))).find?
    (fun r => officialDisplay r == refLabel)

/-- Season-event ordering of the form (`sort_values(["start_date",
"event_name"])`). -/
def eventSeasonLe (a b : EventRow) : Bool :=
  pairLe (a.start_date, a.event_name) (b.start_date, b.event_name)

/-- Outcome of one availability-form interaction: the persisted Availability
table and whether the submit control was reached. -/
structure FormResult where
  avail : List AvailRow
  submitReached : Bool
deriving Repr, DecidableEq

/-- Embedding of `page_availability_form` (source lines 1693-1876): the
early returns of the page in order (empty tables, no category, no matching
officials, no selected name, empty recorded birthdate, empty or mismatched
entered birthdate, no season events needing availability), then the per-event
inputs and, when the submit button is clicked, the replace-and-insert
submission. A label absent from the select list cannot be chosen in the UI
and is modelled as stopping. -/
def page_availability_form
    (refs : List OfficialRow) (events : List EventRow) (avail : List AvailRow)
    (category refLabel birthInput selectedSeason : String)
    (availChoice : String → Bool) (airfareChoice : String → String)
    (submitClicked : Bool) (now : String) (fresh : Nat → String) : FormResult :=
  if refs.isEmpty then ⟨avail, false⟩
  else if events.isEmpty then ⟨avail, false⟩
  else if category == "" then ⟨avail, false⟩
  else if (refs.filter (fun r => r.position_type == category)).isEmpty then ⟨avail, false⟩
  else if refLabel == "" then ⟨avail, false⟩
  else
    match resolveSelected refs category refLabel with
    | none => ⟨avail, false⟩
    | some refRow =>
      if stripStr refRow.birthdate == "" then ⟨avail, false⟩
      else if birthInput == "" then ⟨avail, false⟩
      else if !(stripStr birthInput == stripStr refRow.birthdate) then ⟨avail, false⟩
      else
        let seasonEvents := (events.filter (fun e => e.season == selectedSeason)).filter
          (fun e => e.requires_availability == "Yes")
        if seasonEvents.isEmpty then ⟨avail, false⟩
        else
          let inputs := (insSortBy eventSeasonLe seasonEvents).map (fun e =>
            AvailInput.mk e.event_id (availChoice e.event_id)
              (stripStr (airfareChoice e.event_id)))
          if submitClicked then
            ⟨submitAvailability avail refRow.ref_id selectedSeason now fresh inputs, true⟩
          else ⟨avail, true⟩

-- =========================
-- Import interface (spec section 6); absent from src/
-- =========================

/-- Modelled from the spec: parsing of the `active` import column, which is
absent from src/ together with the whole tabular import interface. The spec
says the column accepts case-insensitive truthy/falsy tokens
(true/yes/y/1, false/no/n/0), defaulting to active when unrecognized. -/
def parseActiveToken (s : String) : String :=
  if lowerStr (stripStr s) ∈ ["false", "no", "n", "0"] then "False" else "True"

/-- Modelled from the spec: an uploaded import row, carrying the name fields
the spec requires at minimum plus the remaining Official columns it allows
optionally (attachment references are not importable). -/
structure ImportRow where
  first_name : String
  last_name : String
  gender : String
  nationality : String
  zone : String
  birthdate : String
  fivb_id : String
  email : String
  phone : String
  origin_airport : String
  position_type : String
  cc_role : String
  ref_level : String
  course_year : String
  shirt_size : String
  shorts_size : String
  active : String
  type : String
deriving Repr, DecidableEq

/-- Modelled from the spec: the Official row created for an accepted import
row, under a fresh identifier. -/
def importedOfficial (freshId : String) (r : ImportRow) : OfficialRow :=
  ⟨freshId, r.first_name, r.last_name, r.gender, r.nationality, r.zone,
    r.birthdate, r.fivb_id, r.email, r.phone, r.origin_airport,
    r.position_type, r.cc_role, r.ref_level, r.course_year, "", "",
    r.shirt_size, r.shorts_size, parseActiveToken r.active, r.type⟩

/-- Outcome of an import: the resulting Officials table, the number of rows
added, and the reported skip counts. -/
structure ImportOutcome where
  table : List OfficialRow
  added : Nat
  skippedDuplicates : Nat
  skippedMissingName : Nat
deriving Repr, DecidableEq

/-- Modelled from the spec: the import loop. A row missing both name fields
is skipped; a row whose non-empty federation identifier already exists in
the current table is skipped as a duplicate; any other row is appended with
a fresh identifier. -/
def importGo (freshId : Nat → String) :
    List OfficialRow → List ImportRow → Nat → Nat → Nat → ImportOutcome
  | table, [], added, dups, noname => ⟨table, added, dups, noname⟩
  | table, r :: rest, added, dups, noname =>
    if stripStr r.first_name == "" && stripStr r.last_name == "" then
      importGo freshId table rest added dups (noname + 1)
    else if r.fivb_id != "" && table.any (fun o => o.fivb_id == r.fivb_id) then
      importGo freshId table rest added (dups + 1) noname
    else
      importGo freshId (table ++ [importedOfficial (freshId added) r]) rest
        (added + 1) dups noname

/-- Modelled from the spec: the tabular import interface (spec section 6,
"Import interface"), which has no implementation under src/ — only the spec
describes it. -/
def importOfficials (freshId : Nat → String) (existing : List OfficialRow)
    (rows : List ImportRow) : ImportOutcome :=
  importGo freshId existing rows 0 0 0


-- =========================
-- Concrete sample data for evaluations and witnesses
-- =========================

/-- Concrete Officials-table row of a Referee r1, in REFEREE_COLS order. -/
def sampleRefereeCells : List (Option String) :=
  [some "r1", some "Ann", some "Ape", some "Female", some "JPN", some "E",
    some "1990-01-01", some "", some "", some "", some "", some "Referee",
    some "", some "FIVB", some "", some "", some "", some "M", some "M",
    some "True", some "Beach"]

/-- Concrete Officials-table row of a Control-Committee official r2, in
REFEREE_COLS order. -/
def sampleCCCells : List (Option String) :=
  [some "r2", some "Bob", some "Bee", some "Male", some "AUS", some "O",
    some "1985-05-05", some "", some "", some "", some "", some "Control Committee",
    some "Both", some "", some "", some "", some "", some "L", some "L",
    some "True", some "Beach"]

/-- Official row with every field empty, for structure-update literals. -/
def blankOfficial : OfficialRow :=
  ⟨"", "", "", "", "", "", "", "", "", "", "", "", "", "", "", "", "", "", "", "", ""⟩

/-- Event row with every field empty, for structure-update literals. -/
def blankEvent : EventRow := ⟨"", "", "", "", "", "", "", "", "", ""⟩

/-- Import row with every field empty, for structure-update literals. -/
def blankImport : ImportRow :=
  ⟨"", "", "", "", "", "", "", "", "", "", "", "", "", "", "", "", "", ""⟩


/-- Concrete Referee official used by form evaluations. -/
def annOfficial : OfficialRow := { blankOfficial with
  ref_id := "r1"
  first_name := "Ann"
  last_name := "Ape"
  nationality := "JPN"
  position_type := "Referee"
  birthdate := "1990-01-01" }

/-- Concrete event requiring availability. -/
def openEvent : EventRow := { blankEvent with
  event_id := "e1"
  season := "2025"
  event_name := "Open"
  start_date := "2025-06-01"
  requires_availability := "Yes" }

/-- Concrete stored official carrying federation identifier F1. -/
def annF1Official : OfficialRow := { blankOfficial with
  ref_id := "r1"
  first_name := "Ann"
  last_name := "Ape"
  fivb_id := "F1" }

/-- Concrete import row duplicating federation identifier F1. -/
def bobImport : ImportRow := { blankImport with
  first_name := "Bob"
  last_name := "Bee"
  fivb_id := "F1" }

/-- Concrete import row duplicating federation identifier F1. -/
def calImport : ImportRow := { blankImport with
  first_name := "Cal"
  last_name := "Cee"
  fivb_id := "F1" }


-- =========================
-- Theorems
-- =========================

/-- Claim C3, counterexample: the claim names the literal status string
"Not available" for a row whose availability is the false-value and which has
no assignment, but `get_status` returns "Not Available" (capital A) there. -/
theorem C3_counterexample :
    get_status [] "o1" "e1" "False" = "Not Available" ∧
    get_status [] "o1" "e1" "False" ≠ "Not available" := by
  constructor
  · decide
  · decide

/-- Claim C3 (amended: the literal no-availability status string is
"Not Available", not "Not available"): the merged status follows the
precedence assignment-pair → "Nominated", else literal true-value →
"Available", else literal false-value → "Not Available", else "Unknown"; in
particular an official assigned to an event who also submitted
available=false for it gets "Nominated". -/
theorem C3_status_precedence (assign_pairs : List (String × String))
    (r e a : String) :
    ((r, e) ∈ assign_pairs → get_status assign_pairs r e a = "Nominated") ∧
    ((r, e) ∉ assign_pairs → lowerStr a = "true" →
      get_status assign_pairs r e a = "Available") ∧
    ((r, e) ∉ assign_pairs → lowerStr a ≠ "true" → lowerStr a = "false" →
      get_status assign_pairs r e a = "Not Available") ∧
    ((r, e) ∉ assign_pairs → lowerStr a ≠ "true" → lowerStr a ≠ "false" →
      get_status assign_pairs r e a = "Unknown") := by
  refine ⟨?_, ?_, ?_, ?_⟩ <;> intros <;> simp [get_status, *]

/-- Claim C3 witness: an official assigned to an event who also submitted
available=false for it gets status "Nominated". -/
theorem C3_status_precedence_witness :
    get_status [("o1", "e1")] "o1" "e1" "False" = "Nominated" :=
  (C3_status_precedence [("o1", "e1")] "o1" "e1" "False").1 (by decide)

theorem github_write_file_snd_localFiles (cfg : Option GHConfig) (w : World)
    (path content message : String) (g : GetShaOutcome) (p : PutOutcome) :
    ((github_write_file cfg w path content message g p).2).localFiles = w.localFiles := by
  cases cfg with
  | none => rfl
  | some c =>
    cases p with
    | exn => rfl
    | resp status =>
      by_cases hs : status = 200 ∨ status = 201 <;>
        simp [github_write_file, hs]

theorem github_write_file_snd_of_failed (cfg : Option GHConfig) (w : World)
    (path content message : String) (g : GetShaOutcome) (p : PutOutcome)
    (h : p.failed) :
    (github_write_file cfg w path content message g p).2 = w := by
  cases cfg with
  | none => rfl
  | some c =>
    cases p with
    | exn => rfl
    | resp status =>
      simp only [PutOutcome.failed] at h
      simp [github_write_file, h]

theorem github_write_file_fst_some (c : GHConfig) (w : World)
    (path content message : String) (g : GetShaOutcome) (p : PutOutcome) :
    (github_write_file (some c) w path content message g p).1 =
      some ⟨message, content, c.branch, payloadSha g⟩ := by
  cases p with
  | exn => rfl
  | resp status =>
    by_cases hs : status = 200 ∨ status = 201 <;>
      simp [github_write_file, hs]

/-- Claim C6: `save_csv` writes the local copy first and then attempts the
remote mirror; whatever the remote outcomes, the local file ends up holding
the new data (and other local files are untouched), and when the remote write
fails the remote mirror is unchanged. No exception propagates: the embedding
is a total function. -/
theorem C6_save_local_durability (cfg : Option GHConfig) (w : World) (path : String)
    (df : DF) (g : GetShaOutcome) (p : PutOutcome) :
    (save_csv cfg w path df g p).localFiles path = some (serializeDF df) ∧
    (∀ q, q ≠ path → (save_csv cfg w path df g p).localFiles q = w.localFiles q) ∧
    (p.failed → (save_csv cfg w path df g p).remoteFiles = w.remoteFiles) := by
  have hlocal : (save_csv cfg w path df g p).localFiles =
      updateFile w.localFiles path (serializeDF df) := by
    cases cfg with
    | none => rfl
    | some c =>
      show ((github_write_file _ _ _ _ _ _ _).2).localFiles = _
      rw [github_write_file_snd_localFiles]
  refine ⟨?_, ?_, ?_⟩
  · rw [hlocal]; simp [updateFile]
  · intro q hq; rw [hlocal]; simp [updateFile, hq]
  · intro hfail
    cases cfg with
    | none => rfl
    | some c =>
      show ((github_write_file _ _ _ _ _ _ _).2).remoteFiles = _
      rw [github_write_file_snd_of_failed _ _ _ _ _ _ _ hfail]

/-- Claim C6 witness: with remote configured and the PUT failing with status
500, the local file holds the new CSV data, an unrelated local path is
untouched, and the remote mirror is unchanged. -/
theorem C6_save_local_durability_witness :
    (save_csv (some ⟨"t", "o", "r", "main"⟩) ⟨fun _ => none, fun _ => none⟩
        "data/availability.csv" ⟨AVAIL_COLS, []⟩ (.resp 404 none)
        (.resp 500)).localFiles "data/availability.csv" =
      some (serializeDF ⟨AVAIL_COLS, []⟩) ∧
    (save_csv (some ⟨"t", "o", "r", "main"⟩) ⟨fun _ => none, fun _ => none⟩
        "data/availability.csv" ⟨AVAIL_COLS, []⟩ (.resp 404 none)
        (.resp 500)).localFiles "data/referees.csv" = none ∧
    (save_csv (some ⟨"t", "o", "r", "main"⟩) ⟨fun _ => none, fun _ => none⟩
        "data/availability.csv" ⟨AVAIL_COLS, []⟩ (.resp 404 none)
        (.resp 500)).remoteFiles "data/availability.csv" = none := by
  have h := C6_save_local_durability (some ⟨"t", "o", "r", "main"⟩)
    ⟨fun _ => none, fun _ => none⟩ "data/availability.csv" ⟨AVAIL_COLS, []⟩
    (.resp 404 none) (.resp 500)
  refine ⟨h.1, ?_, ?_⟩
  · exact h.2.1 "data/referees.csv" (by decide)
  · have hr := h.2.2 (by intro hc; rcases hc with h1 | h1 <;> simp at h1)
    exact congrFun hr "data/availability.csv"

/-- Claim C7: `github_write_file` first attempts to fetch the current SHA of
the target path, treats any non-200 result (404 not-found included) or
exception as the absence of a token, and includes a "sha" field in the PUT
payload exactly when the fetch yielded a token (a 200 response whose body
carries a non-empty "sha"). -/
theorem C7_write_carries_revision (c : GHConfig) (w : World)
    (path content message : String) (g : GetShaOutcome) (p : PutOutcome) :
    ∃ payload,
      (github_write_file (some c) w path content message g p).1 = some payload ∧
      (∀ s, g = .resp 200 (some s) → s ≠ "" → payload.sha = some s) ∧
      (∀ status shaField, g = .resp status shaField → status ≠ 200 → payload.sha = none) ∧
      (g = .resp 200 none → payload.sha = none) ∧
      (g = .exn → payload.sha = none) ∧
      (∀ s, payload.sha = some s → g = .resp 200 (some s) ∧ s ≠ "") := by
  refine ⟨⟨message, content, c.branch, payloadSha g⟩,
    github_write_file_fst_some c w path content message g p, ?_, ?_, ?_, ?_, ?_⟩
  · intro s hg hs
    subst hg
    simp [payloadSha, fetchedSha, hs]
  · intro status shaField hg h200
    subst hg
    simp [payloadSha, fetchedSha, h200]
  · intro hg
    subst hg
    simp [payloadSha, fetchedSha]
  · intro hg
    subst hg
    simp [payloadSha, fetchedSha]
  · intro s hsha
    cases g with
    | exn => simp [payloadSha, fetchedSha] at hsha
    | resp status shaField =>
      by_cases h200 : status = 200
      · subst h200
        cases shaField with
        | none => simp [payloadSha, fetchedSha] at hsha
        | some s2 =>
          by_cases hs2 : s2 = ""
          · simp [payloadSha, fetchedSha, hs2] at hsha
          · simp [payloadSha, fetchedSha, hs2] at hsha
            subst hsha
            exact ⟨rfl, hs2⟩
      · simp [payloadSha, fetchedSha, h200] at hsha

/-- Claim C7 witness: with a 200 SHA fetch returning token "abc", the payload
sent by the write carries sha "abc"; with a 404 fetch, it carries none. -/
theorem C7_write_carries_revision_witness :
    (∃ payload,
      (github_write_file (some ⟨"t", "o", "r", "main"⟩) ⟨fun _ => none, fun _ => none⟩
        "data/referees.csv" "x" "m" (.resp 200 (some "abc")) (.resp 200)).1 = some payload ∧
      payload.sha = some "abc") ∧
    (∃ payload,
      (github_write_file (some ⟨"t", "o", "r", "main"⟩) ⟨fun _ => none, fun _ => none⟩
        "data/referees.csv" "x" "m" (.resp 404 none) (.resp 201)).1 = some payload ∧
      payload.sha = none) := by
  constructor
  · obtain ⟨payload, h1, h2, -, -, -, -⟩ :=
      C7_write_carries_revision ⟨"t", "o", "r", "main"⟩ ⟨fun _ => none, fun _ => none⟩
        "data/referees.csv" "x" "m" (.resp 200 (some "abc")) (.resp 200)
    exact ⟨payload, h1, h2 "abc" rfl (by decide)⟩
  · obtain ⟨payload, h1, -, h3, -, -, -⟩ :=
      C7_write_carries_revision ⟨"t", "o", "r", "main"⟩ ⟨fun _ => none, fun _ => none⟩
        "data/referees.csv" "x" "m" (.resp 404 none) (.resp 201)
    exact ⟨payload, h1, h3 404 none rfl (by decide)⟩

theorem DF.addCol_wf (df : DF) (c v : String) (h : df.wf) : (df.addCol c v).wf := by
  intro r hr
  simp only [DF.addCol, List.mem_map] at hr
  obtain ⟨r0, hr0, rfl⟩ := hr
  simp [DF.addCol, h r0 hr0]

theorem getEntry_append_of_mem (cols : List String) (r : List (Option String))
    (cs2 : List String) (r2 : List (Option String)) (c : String)
    (hc : c ∈ cols) (hlen : r.length = cols.length) :
    getEntry (cols ++ cs2) (r ++ r2) c = getEntry cols r c := by
  induction cols generalizing r with
  | nil => exact absurd hc (List.not_mem_nil c)
  | cons c0 cs ih =>
    cases r with
    | nil => simp at hlen
    | cons v vs =>
      by_cases h0 : c0 = c
      · simp [getEntry, h0]
      · simp only [List.cons_append, getEntry, if_neg h0]
        have hc2 : c ∈ cs := by
          cases List.mem_cons.mp hc with
          | inl h => exact absurd h.symm h0
          | inr h => exact h
        exact ih vs hc2 (by simpa using hlen)

theorem getEntry_append_right (cols : List String) (r : List (Option String))
    (cs2 : List String) (r2 : List (Option String)) (c : String)
    (hc : c ∉ cols) (hlen : r.length = cols.length) :
    getEntry (cols ++ cs2) (r ++ r2) c = getEntry cs2 r2 c := by
  induction cols generalizing r with
  | nil =>
    cases r with
    | nil => rfl
    | cons v vs => simp at hlen
  | cons c0 cs ih =>
    cases r with
    | nil => simp at hlen
    | cons v vs =>
      have h0 : c0 ≠ c := fun h => hc (h ▸ List.mem_cons_self c0 cs)
      simp only [List.cons_append, getEntry, if_neg h0]
      exact ih vs (fun h => hc (List.mem_cons_of_mem c0 h)) (by simpa using hlen)

theorem getEntry_map_row (cols : List String) (r : List (Option String))
    (c : String) (f : Option String → Option String) :
    getEntry cols (r.map f) c = (getEntry cols r c).map f := by
  induction cols generalizing r with
  | nil => rfl
  | cons c0 cs ih =>
    cases r with
    | nil => rfl
    | cons v vs =>
      by_cases h0 : c0 = c
      · simp [getEntry, h0]
      · simp only [List.map_cons, getEntry, if_neg h0]
        exact ih vs

theorem ensureCols_cols_mono (cs : List String) (df : DF) (c : String)
    (h : c ∈ df.cols) : c ∈ (ensureCols df cs).cols := by
  induction cs generalizing df with
  | nil => exact h
  | cons c0 rest ih =>
    by_cases h0 : c0 ∈ df.cols
    · simpa [ensureCols, h0] using ih df h
    · simp only [ensureCols, if_neg h0]
      exact ih _ (by simp [DF.addCol, h])

theorem ensureCols_cols_of_mem (cs : List String) (df : DF) (c : String)
    (h : c ∈ cs) : c ∈ (ensureCols df cs).cols := by
  induction cs generalizing df with
  | nil => exact absurd h (List.not_mem_nil c)
  | cons c0 rest ih =>
    by_cases h0 : c0 ∈ df.cols
    · simp only [ensureCols, if_pos h0]
      cases List.mem_cons.mp h with
      | inl heq => exact ensureCols_cols_mono rest df c (heq ▸ h0)
      | inr hmem => exact ih df hmem
    · simp only [ensureCols, if_neg h0]
      cases List.mem_cons.mp h with
      | inl heq =>
        exact ensureCols_cols_mono rest _ c (by simp [DF.addCol, heq])
      | inr hmem => exact ih _ hmem

theorem ensureCols_wf (cs : List String) (df : DF) (h : df.wf) :
    (ensureCols df cs).wf := by
  induction cs generalizing df with
  | nil => exact h
  | cons c0 rest ih =>
    by_cases h0 : c0 ∈ df.cols
    · simpa [ensureCols, h0] using ih df h
    · simp only [ensureCols, if_neg h0]
      exact ih _ (df.addCol_wf c0 "" h)

theorem ensureCols_getEntry_pres (cs : List String) (df : DF) (c : String)
    (x : Option (Option String)) (hwf : df.wf) (hc : c ∈ df.cols)
    (hval : ∀ r ∈ df.rows, getEntry df.cols r c = x) :
    ∀ r ∈ (ensureCols df cs).rows, getEntry (ensureCols df cs).cols r c = x := by
  induction cs generalizing df with
  | nil => exact hval
  | cons c0 rest ih =>
    by_cases h0 : c0 ∈ df.cols
    · simpa [ensureCols, h0] using ih df hwf hc hval
    · simp only [ensureCols, if_neg h0]
      refine ih _ (df.addCol_wf c0 "" hwf) (by simp [DF.addCol, hc]) ?_
      intro r hr
      simp only [DF.addCol, List.mem_map] at hr
      obtain ⟨r0, hr0, rfl⟩ := hr
      rw [show (df.addCol c0 "").cols = df.cols ++ [c0] from rfl,
        getEntry_append_of_mem df.cols r0 [c0] [some ""] c hc (hwf r0 hr0)]
      exact hval r0 hr0

theorem ensureCols_getEntry_new (cs : List String) (df : DF) (c : String)
    (hwf : df.wf) (habs : c ∉ df.cols) (hc : c ∈ cs) :
    ∀ r ∈ (ensureCols df cs).rows,
      getEntry (ensureCols df cs).cols r c = some (some "") := by
  induction cs generalizing df with
  | nil => exact absurd hc (List.not_mem_nil c)
  | cons c0 rest ih =>
    by_cases h0 : c0 ∈ df.cols
    · have hne : c ≠ c0 := fun h => habs (h ▸ h0)
      have hrest : c ∈ rest := by
        cases List.mem_cons.mp hc with
        | inl h => exact absurd h hne
        | inr h => exact h
      simpa [ensureCols, h0] using ih df hwf habs hrest
    · simp only [ensureCols, if_neg h0]
      by_cases heq : c0 = c
      · subst heq
        refine ensureCols_getEntry_pres rest _ c0 (some (some ""))
          (df.addCol_wf c0 "" hwf) (by simp [DF.addCol]) ?_
        intro r hr
        simp only [DF.addCol, List.mem_map] at hr
        obtain ⟨r0, hr0, rfl⟩ := hr
        rw [show (df.addCol c0 "").cols = df.cols ++ [c0] from rfl,
          getEntry_append_right df.cols r0 [c0] [some ""] c0 habs (hwf r0 hr0)]
        simp [getEntry]
      · have hrest : c ∈ rest := by
          cases List.mem_cons.mp hc with
          | inl h => exact absurd h.symm heq
          | inr h => exact h
        refine ih _ (df.addCol_wf c0 "" hwf) ?_ hrest
        simp only [DF.addCol, List.mem_append, List.mem_singleton]
        rintro (h | h)
        · exact habs h
        · exact heq h.symm

/-- Claim C8: `load_csv` returns a table containing every expected column;
each expected column missing from the resolved stored data is present with
the empty-string cell in every row; and every cell of the result is a string
(never a missing marker). -/
theorem C8_load_column_completion (remote localFile : Option DF)
    (columns : List String) (hwf : (resolveLoad remote localFile columns).wf) :
    (∀ c ∈ columns, c ∈ (load_csv remote localFile columns).cols) ∧
    (∀ c ∈ columns, c ∉ (resolveLoad remote localFile columns).cols →
      ∀ r ∈ (load_csv remote localFile columns).rows,
        getEntry (load_csv remote localFile columns).cols r c = some (some "")) ∧
    (∀ r ∈ (load_csv remote localFile columns).rows, ∀ cell ∈ r, cell.isSome) := by
  refine ⟨?_, ?_, ?_⟩
  · intro c hc
    show c ∈ (ensureCols (resolveLoad remote localFile columns) columns).cols
    exact ensureCols_cols_of_mem columns _ c hc
  · intro c hc habs r hr
    simp only [load_csv, DF.fillna, List.mem_map] at hr
    obtain ⟨r0, hr0, rfl⟩ := hr
    show getEntry (ensureCols (resolveLoad remote localFile columns) columns).cols _ c = _
    rw [getEntry_map_row,
      ensureCols_getEntry_new columns _ c hwf habs hc r0 hr0]
    rfl
  · intro r hr cell hcell
    simp only [load_csv, DF.fillna, List.mem_map] at hr
    obtain ⟨r0, hr0, rfl⟩ := hr
    simp only [List.mem_map] at hcell
    obtain ⟨cell0, _, rfl⟩ := hcell
    rfl

/-- Claim C8 witness: loading a local table that has only column "a" (with a
missing cell) against expected columns ["a", "b"] yields a table where "b"
exists with the empty-string value and no cell is a missing marker. -/
theorem C8_load_column_completion_witness :
    "b" ∈ (load_csv none (some ⟨["a"], [[none]]⟩) ["a", "b"]).cols ∧
    getEntry (load_csv none (some ⟨["a"], [[none]]⟩) ["a", "b"]).cols
      [some "", some ""] "b" = some (some "") ∧
    (∀ cell ∈ [some "", some ""], Option.isSome cell) := by
  have h := C8_load_column_completion none (some ⟨["a"], [[none]]⟩) ["a", "b"]
    (by intro r hr; simp only [resolveLoad, List.mem_singleton] at hr; simp [hr, resolveLoad])
  refine ⟨h.1 "b" (by decide), ?_, ?_⟩
  · exact h.2.1 "b" (by decide) (by decide) [some "", some ""] (by decide)
  · exact h.2.2 [some "", some ""] (by decide)

theorem getEntry_mapColAux_same (f : Option String → Option String)
    (cols : List String) (r : List (Option String)) (t : String) :
    getEntry cols (mapColAux f cols r t) t = (getEntry cols r t).map f := by
  induction cols generalizing r with
  | nil => rfl
  | cons c0 cs ih =>
    cases r with
    | nil => rfl
    | cons v vs =>
      by_cases h0 : c0 = t
      · simp [mapColAux, getEntry, h0]
      · simp only [mapColAux, if_neg h0, getEntry]
        exact ih vs

theorem getEntry_mapColAux_other (f : Option String → Option String)
    (cols : List String) (r : List (Option String)) (t tq : String)
    (h : tq ≠ t) :
    getEntry cols (mapColAux f cols r t) tq = getEntry cols r tq := by
  induction cols generalizing r with
  | nil => rfl
  | cons c0 cs ih =>
    cases r with
    | nil => rfl
    | cons v vs =>
      by_cases h0 : c0 = t
      · subst h0
        have hq : c0 ≠ tq := fun heq => h heq.symm
        simp [mapColAux, getEntry, hq]
      · by_cases h1 : c0 = tq
        · subst h1
          simp [mapColAux, getEntry, h0]
        · simp only [mapColAux, if_neg h0, getEntry, if_neg h1]
          exact ih vs

theorem parseDate_valid (s : String) (y m d : Nat)
    (h : parseDate s = some (y, m, d)) :
    1 ≤ m ∧ m ≤ 12 ∧ 1 ≤ d ∧ d ≤ daysInMonth y m := by
  unfold parseDate at h
  split at h
  next y0 m0 d0 heq =>
    split at h
    next hcond =>
      obtain ⟨rfl, rfl, rfl⟩ : y0 = y ∧ m0 = m ∧ d0 = d := by simpa using h
      exact hcond
    next hcond => exact absurd h (by simp)
  next heq => exact absurd h (by simp)

theorem normalizeEventDates_rows (df : DF) (r : List (Option String))
    (hr : r ∈ (normalizeEventDates df).rows) :
    ∃ r0 ∈ df.rows, ∀ c ∈ eventDateCols,
      getEntry df.cols r c = (getEntry df.cols r0 c).map normCell := by
  unfold normalizeEventDates at hr
  split at hr
  next hempty =>
    rw [List.isEmpty_iff] at hempty
    rw [hempty] at hr
    exact absurd hr (List.not_mem_nil r)
  next hempty =>
    simp only [DF.mapCol, List.mem_map] at hr
    obtain ⟨r3, ⟨r2, ⟨r1, ⟨r0, hr0, rfl⟩, rfl⟩, rfl⟩, rfl⟩ := hr
    refine ⟨r0, hr0, ?_⟩
    intro c hcmem
    simp only [eventDateCols, List.mem_cons, List.not_mem_nil, or_false] at hcmem
    rcases hcmem with rfl | rfl | rfl | rfl
    · rw [getEntry_mapColAux_other normCell df.cols _ "departure_date" "start_date" (by decide),
        getEntry_mapColAux_other normCell df.cols _ "arrival_date" "start_date" (by decide),
        getEntry_mapColAux_other normCell df.cols _ "end_date" "start_date" (by decide),
        getEntry_mapColAux_same normCell df.cols r0 "start_date"]
    · rw [getEntry_mapColAux_other normCell df.cols _ "departure_date" "end_date" (by decide),
        getEntry_mapColAux_other normCell df.cols _ "arrival_date" "end_date" (by decide),
        getEntry_mapColAux_same normCell df.cols _ "end_date",
        getEntry_mapColAux_other normCell df.cols r0 "start_date" "end_date" (by decide)]
    · rw [getEntry_mapColAux_other normCell df.cols _ "departure_date" "arrival_date" (by decide),
        getEntry_mapColAux_same normCell df.cols _ "arrival_date",
        getEntry_mapColAux_other normCell df.cols _ "end_date" "arrival_date" (by decide),
        getEntry_mapColAux_other normCell df.cols r0 "start_date" "arrival_date" (by decide)]
    · rw [getEntry_mapColAux_same normCell df.cols _ "departure_date",
        getEntry_mapColAux_other normCell df.cols _ "arrival_date" "departure_date" (by decide),
        getEntry_mapColAux_other normCell df.cols _ "end_date" "departure_date" (by decide),
        getEntry_mapColAux_other normCell df.cols r0 "start_date" "departure_date" (by decide)]

/-- Claim C4, counterexample: a stored Events table whose start_date cell
holds the unparsable text "garbage" is normalized by `load_events` to the
literal string "NaT", not to an empty value as the claim states. -/
theorem C4_counterexample :
    ((normalizeEventDates ⟨EVENT_COLS,
        [[some "e1", some "2025", some "garbage", some "", some "Test Open",
          some "", some "", some "", some "", some "Yes"]]⟩).rows.map
      (fun r => getStr EVENT_COLS r "start_date")) = ["NaT"] ∧
    ("NaT" : String) ≠ "" := by
  constructor
  · decide
  · decide

/-- Claim C4 (amended: unparsable or empty date cells become the literal
string "NaT", the string form of the coerced pandas missing value, rather
than an empty value): after the Events-table load normalization, every cell
of the four date-like columns holds either an ISO-8601 calendar-date string
(the zero-padded rendering of a valid year-month-day triple) or the literal
"NaT". -/
theorem C4_event_dates_iso_or_nat (df : DF) (c : String) (hc : c ∈ eventDateCols)
    (r : List (Option String)) (hr : r ∈ (normalizeEventDates df).rows)
    (cell : Option String) (hcell : getEntry df.cols r c = some cell) :
    ∃ v, cell = some v ∧
      (v = "NaT" ∨ ∃ y m d, (1 ≤ m ∧ m ≤ 12 ∧ 1 ≤ d ∧ d ≤ daysInMonth y m) ∧
        v = formatIso y m d) := by
  obtain ⟨r0, hr0, hget⟩ := normalizeEventDates_rows df r hr
  rw [hget c hc] at hcell
  cases hE : getEntry df.cols r0 c with
  | none => rw [hE] at hcell; simp at hcell
  | some cell0 =>
    rw [hE] at hcell
    simp only [Option.map_some', Option.some.injEq] at hcell
    obtain rfl : normCell cell0 = cell := hcell
    refine ⟨normalizeDateCell (cell0.getD ""), rfl, ?_⟩
    cases hp : parseDate (cell0.getD "") with
    | none => exact Or.inl (by simp [normalizeDateCell, hp])
    | some t =>
      obtain ⟨y, m, d⟩ := t
      exact Or.inr ⟨y, m, d, parseDate_valid _ y m d hp,
        by simp [normalizeDateCell, hp]⟩

/-- Claim C4 witness: in the normalized concrete Events table, the
start_date cell of the single row satisfies the ISO-or-NaT disjunction. -/
theorem C4_event_dates_iso_or_nat_witness :
    ∃ v, (some "NaT" : Option String) = some v ∧
      (v = "NaT" ∨ ∃ y m d, (1 ≤ m ∧ m ≤ 12 ∧ 1 ≤ d ∧ d ≤ daysInMonth y m) ∧
        v = formatIso y m d) :=
  C4_event_dates_iso_or_nat ⟨EVENT_COLS,
      [[some "e1", some "2025", some "garbage", some "", some "Test Open",
        some "", some "", some "", some "", some "Yes"]]⟩
    "start_date" (by decide)
    [some "e1", some "2025", some "NaT", some "NaT", some "Test Open",
      some "", some "", some "NaT", some "NaT", some "Yes"]
    (by decide) (some "NaT") (by decide)

/-- Claim C1: deleting an Official that has availability and assignment rows
leaves a state with no Official row, no Availability row and no Assignment
row carrying that identifier, while availability and assignment rows of
other officials are exactly preserved. -/
theorem C1_delete_official_cascade (refs : DF) (choice id : String)
    (avail : List AvailRow) (assigns : List AssignRow)
    (ha : ∃ a ∈ avail, a.ref_id = id) (hb : ∃ b ∈ assigns, b.ref_id = id) :
    (∀ r ∈ (deleteOfficial refs choice id avail assigns).refs.rows,
      getStr (deleteOfficial refs choice id avail assigns).refs.cols r "ref_id" ≠ id) ∧
    (∀ a ∈ (deleteOfficial refs choice id avail assigns).avail, a.ref_id ≠ id) ∧
    (∀ a ∈ avail, a.ref_id ≠ id → a ∈ (deleteOfficial refs choice id avail assigns).avail) ∧
    (∀ a ∈ (deleteOfficial refs choice id avail assigns).avail, a ∈ avail) ∧
    (∀ b ∈ (deleteOfficial refs choice id avail assigns).assigns, b.ref_id ≠ id) ∧
    (∀ b ∈ assigns, b.ref_id ≠ id → b ∈ (deleteOfficial refs choice id avail assigns).assigns) ∧
    (∀ b ∈ (deleteOfficial refs choice id avail assigns).assigns, b ∈ assigns) := by
  obtain ⟨a0, ha0, ha0id⟩ := ha
  obtain ⟨b0, hb0, hb0id⟩ := hb
  have havne : avail.isEmpty = false := by
    cases avail with
    | nil => exact absurd ha0 (List.not_mem_nil a0)
    | cons x xs => rfl
  have hasne : assigns.isEmpty = false := by
    cases assigns with
    | nil => exact absurd hb0 (List.not_mem_nil b0)
    | cons x xs => rfl
  refine ⟨?_, ?_, ?_, ?_, ?_, ?_, ?_⟩
  · intro r hr heq
    simp only [deleteOfficial, DF.filterRows, List.mem_filter] at hr
    simp only [deleteOfficial, DF.filterRows] at heq
    have h2 := hr.2
    rw [heq] at h2
    simp at h2
  · intro a hmem
    simp only [deleteOfficial, havne, Bool.false_eq_true, if_false,
      List.mem_filter, bne_iff_ne] at hmem
    exact hmem.2
  · intro a hmem hne
    simp only [deleteOfficial, havne, Bool.false_eq_true, if_false,
      List.mem_filter, bne_iff_ne]
    exact ⟨hmem, hne⟩
  · intro a hmem
    simp only [deleteOfficial, havne, Bool.false_eq_true, if_false,
      List.mem_filter] at hmem
    exact hmem.1
  · intro b hmem
    simp only [deleteOfficial, hasne, Bool.false_eq_true, if_false,
      List.mem_filter, bne_iff_ne] at hmem
    exact hmem.2
  · intro b hmem hne
    simp only [deleteOfficial, hasne, Bool.false_eq_true, if_false,
      List.mem_filter, bne_iff_ne]
    exact ⟨hmem, hne⟩
  · intro b hmem
    simp only [deleteOfficial, hasne, Bool.false_eq_true, if_false,
      List.mem_filter] at hmem
    exact hmem.1

/-- Claim C1 witness: deleting official r1 keeps the availability and
assignment rows of official r2. -/
theorem C1_delete_official_cascade_witness :
    (⟨"av2", "r2", "2025", "e1", "False", "", "t"⟩ : AvailRow) ∈
      (deleteOfficial ⟨REFEREE_COLS, [sampleRefereeCells]⟩ "All" "r1"
        [⟨"av1", "r1", "2025", "e1", "True", "", "t"⟩,
          ⟨"av2", "r2", "2025", "e1", "False", "", "t"⟩]
        [⟨"as1", "r1", "e1", "1st Referee"⟩,
          ⟨"as2", "r2", "e1", "2nd Referee"⟩]).avail ∧
    (⟨"as2", "r2", "e1", "2nd Referee"⟩ : AssignRow) ∈
      (deleteOfficial ⟨REFEREE_COLS, [sampleRefereeCells]⟩ "All" "r1"
        [⟨"av1", "r1", "2025", "e1", "True", "", "t"⟩,
          ⟨"av2", "r2", "2025", "e1", "False", "", "t"⟩]
        [⟨"as1", "r1", "e1", "1st Referee"⟩,
          ⟨"as2", "r2", "e1", "2nd Referee"⟩]).assigns := by
  have h := C1_delete_official_cascade ⟨REFEREE_COLS, [sampleRefereeCells]⟩ "All" "r1"
    [⟨"av1", "r1", "2025", "e1", "True", "", "t"⟩,
      ⟨"av2", "r2", "2025", "e1", "False", "", "t"⟩]
    [⟨"as1", "r1", "e1", "1st Referee"⟩, ⟨"as2", "r2", "e1", "2nd Referee"⟩]
    ⟨⟨"av1", "r1", "2025", "e1", "True", "", "t"⟩, by decide, rfl⟩
    ⟨⟨"as1", "r1", "e1", "1st Referee"⟩, by decide, rfl⟩
  exact ⟨h.2.2.1 _ (by decide) (by decide), h.2.2.2.2.2.1 _ (by decide) (by decide)⟩

/-- Claim C5, code evaluation at the failing input: with the category filter
"Referee" active and officials of both categories present, deleting official
r1 persists an Officials table that has lost the Control-Committee official
r2 entirely and has gained a "display" column — the delete branch saves the
category-filtered, display-augmented frame instead of the full table. -/
theorem C5_code_evaluation :
    ((⟨REFEREE_COLS, [sampleRefereeCells, sampleCCCells]⟩ : DF).rows.filter
      (fun r => getStr REFEREE_COLS r "ref_id" == "r2")).length = 1 ∧
    ((deleteOfficial ⟨REFEREE_COLS, [sampleRefereeCells, sampleCCCells]⟩
        "Referee" "r1" [] []).refs.rows.filter
      (fun r => getStr (deleteOfficial ⟨REFEREE_COLS,
          [sampleRefereeCells, sampleCCCells]⟩ "Referee" "r1" [] []).refs.cols
        r "ref_id" == "r2")).length = 0 ∧
    "display" ∈ (deleteOfficial ⟨REFEREE_COLS, [sampleRefereeCells, sampleCCCells]⟩
      "Referee" "r1" [] []).refs.cols ∧
    (deleteOfficial ⟨REFEREE_COLS, [sampleRefereeCells, sampleCCCells]⟩
      "Referee" "r1" [] []).refs.cols ≠ REFEREE_COLS := by
  refine ⟨?_, ?_, ?_, ?_⟩ <;> decide

theorem countP_enumFrom (p : α → Bool) :
    ∀ (n : Nat) (l : List α),
      (List.enumFrom n l).countP (fun q => p q.2) = l.countP p
  | _, [] => rfl
  | n, a :: l => by
    simp [List.enumFrom, List.countP_cons, countP_enumFrom p (n + 1) l]

theorem submitAvailability_filter (avail : List AvailRow)
    (rid season now : String) (fresh : Nat → String)
    (inputs : List AvailInput) (E : String) :
    (submitAvailability avail rid season now fresh inputs).filter
      (fun a => (a.ref_id == rid && a.season == season) && a.event_id == E) =
    (inputs.enum.filter (fun p => p.2.event_id == E)).map
      (fun p => mkAvailRow (fresh p.1) rid season now p.2) := by
  unfold submitAvailability
  rw [List.filter_append]
  have h1 : (avail.filter (fun a => !(a.ref_id == rid && a.season == season))).filter
      (fun a => (a.ref_id == rid && a.season == season) && a.event_id == E) = [] := by
    rw [List.filter_eq_nil_iff]
    intro a hmem
    have h2 := (List.mem_filter.mp hmem).2
    rw [Bool.not_eq_true'] at h2
    simp [h2]
  rw [h1, List.nil_append, List.filter_map]
  congr 1
  apply List.filter_congr
  intro p _
  simp [mkAvailRow, Function.comp]

/-- Claim C2: submitting the availability form for (official, season) first
clears every prior row of that pair and inserts exactly one fresh row per
presented event, so the row count per (official, season, event) equals the
input count for that event (at most one under distinct events); a second
submission covering only the first of two events leaves zero rows for the
dropped event and exactly one row for the kept event holding the second
submitted value. -/
theorem C2_availability_replace (avail : List AvailRow)
    (rid season now1 now2 : String) (fresh1 fresh2 : Nat → String)
    (inputs : List AvailInput)
    (hnd : (inputs.map AvailInput.event_id).Nodup)
    (E1 E2 : String) (v1 v2 w1 : Bool) (f1 f2 g1 : String) (hE : E1 ≠ E2) :
    (∀ E, ((submitAvailability avail rid season now1 fresh1 inputs).filter
        (fun a => (a.ref_id == rid && a.season == season) && a.event_id == E)).length
      = inputs.countP (fun i => i.event_id == E)) ∧
    (∀ E, ((submitAvailability avail rid season now1 fresh1 inputs).filter
        (fun a => (a.ref_id == rid && a.season == season) && a.event_id == E)).length
      ≤ 1) ∧
    ((submitAvailability (submitAvailability avail rid season now1 fresh1
          [⟨E1, v1, f1⟩, ⟨E2, v2, f2⟩]) rid season now2 fresh2
        [⟨E1, w1, g1⟩]).filter
      (fun a => (a.ref_id == rid && a.season == season) && a.event_id == E2)).length
      = 0 ∧
    ((submitAvailability (submitAvailability avail rid season now1 fresh1
          [⟨E1, v1, f1⟩, ⟨E2, v2, f2⟩]) rid season now2 fresh2
        [⟨E1, w1, g1⟩]).filter
      (fun a => (a.ref_id == rid && a.season == season) && a.event_id == E1)).map
        (fun a => a.available) = [if w1 then "True" else "False"] := by
  have hcount : ∀ E, ((submitAvailability avail rid season now1 fresh1 inputs).filter
      (fun a => (a.ref_id == rid && a.season == season) && a.event_id == E)).length
      = inputs.countP (fun i => i.event_id == E) := by
    intro E
    rw [submitAvailability_filter, List.length_map, ← List.countP_eq_length_filter]
    exact countP_enumFrom (fun i => i.event_id == E) 0 inputs
  refine ⟨hcount, ?_, ?_, ?_⟩
  · intro E
    rw [hcount E]
    have h1 : inputs.countP (fun i => i.event_id == E) =
        (inputs.map AvailInput.event_id).countP (fun e => e == E) := by
      rw [List.countP_map]
      rfl
    rw [h1]
    have h2 : (inputs.map AvailInput.event_id).countP (fun e => e == E) =
        (inputs.map AvailInput.event_id).count E := rfl
    rw [h2]
    exact List.nodup_iff_count_le_one.mp hnd E
  · rw [submitAvailability_filter]
    have : (E1 == E2) = false := by simp [hE]
    simp [List.enum, List.enumFrom, this]
  · rw [submitAvailability_filter]
    simp [List.enum, List.enumFrom, mkAvailRow]

/-- Claim C2 witness: for official o1, season 2025, submitting events e1, e2
and then only e1 leaves zero rows for e2 and one row for e1 holding the
second value. -/
theorem C2_availability_replace_witness :
    ((submitAvailability [] "o1" "2025" "t1" (fun _ => "f")
        [⟨"e1", true, ""⟩, ⟨"e2", false, ""⟩]).filter
      (fun a => (a.ref_id == "o1" && a.season == "2025") && a.event_id == "e1")).length
      = ([⟨"e1", true, ""⟩, ⟨"e2", false, ""⟩] : List AvailInput).countP
          (fun i => i.event_id == "e1") ∧
    ((submitAvailability (submitAvailability [] "o1" "2025" "t1" (fun _ => "f")
          [⟨"e1", true, ""⟩, ⟨"e2", false, ""⟩]) "o1" "2025" "t2" (fun _ => "g")
        [⟨"e1", false, ""⟩]).filter
      (fun a => (a.ref_id == "o1" && a.season == "2025") && a.event_id == "e2")).length
      = 0 ∧
    ((submitAvailability (submitAvailability [] "o1" "2025" "t1" (fun _ => "f")
          [⟨"e1", true, ""⟩, ⟨"e2", false, ""⟩]) "o1" "2025" "t2" (fun _ => "g")
        [⟨"e1", false, ""⟩]).filter
      (fun a => (a.ref_id == "o1" && a.season == "2025") && a.event_id == "e1")).map
        (fun a => a.available) = [if false then "True" else "False"] := by
  have h := C2_availability_replace [] "o1" "2025" "t1" "t2" (fun _ => "f")
    (fun _ => "g") [⟨"e1", true, ""⟩, ⟨"e2", false, ""⟩] (by decide)
    "e1" "e2" true false false "" "" "" (by decide)
  exact ⟨h.1 "e1", h.2.2.1, h.2.2.2⟩

/-- Claim C10: on the public availability form, when the selected official
resolves but the recorded birthdate is empty after stripping, or the entered
birthdate differs after stripping, the page stops before the submit control
and the Availability table is unchanged. -/
theorem C10_birthdate_gate
    (refs : List OfficialRow) (events : List EventRow) (avail : List AvailRow)
    (category refLabel birthInput selectedSeason : String)
    (availChoice : String → Bool) (airfareChoice : String → String)
    (submitClicked : Bool) (now : String) (fresh : Nat → String)
    (refRow : OfficialRow)
    (hsel : resolveSelected refs category refLabel = some refRow)
    (hgate : stripStr refRow.birthdate = "" ∨
      stripStr birthInput ≠ stripStr refRow.birthdate) :
    page_availability_form refs events avail category refLabel birthInput
      selectedSeason availChoice airfareChoice submitClicked now fresh
      = ⟨avail, false⟩ := by
  rcases hgate with hb | hne
  · have hb2 : (stripStr refRow.birthdate == "") = true := by simp [hb]
    simp [page_availability_form, hsel, hb2]
  · have hb2 : (!(stripStr birthInput == stripStr refRow.birthdate)) = true := by
      simp [hne]
    simp [page_availability_form, hsel, hb2]

/-- Claim C10 witness: entering a birthdate that differs from the recorded
one leaves the Availability table unchanged and the submit control
unreached. -/
theorem C10_birthdate_gate_witness :
    page_availability_form [annOfficial] [openEvent]
      [⟨"av1", "r1", "2025", "e1", "True", "", "t"⟩]
      "Referee" "Ann Ape (JPN)" "1990-01-02" "2025"
      (fun _ => true) (fun _ => "") true "t2" (fun _ => "fid")
      = ⟨[⟨"av1", "r1", "2025", "e1", "True", "", "t"⟩], false⟩ :=
  C10_birthdate_gate [annOfficial] [openEvent]
    [⟨"av1", "r1", "2025", "e1", "True", "", "t"⟩]
    "Referee" "Ann Ape (JPN)" "1990-01-02" "2025"
    (fun _ => true) (fun _ => "") true "t2" (fun _ => "fid")
    annOfficial (by decide) (Or.inr (by decide))

theorem importGo_all_skipped (freshId : Nat → String) (existing : List OfficialRow)
    (rows : List ImportRow) :
    ∀ a d n : Nat,
      (∀ r ∈ rows, r.fivb_id ≠ "" ∧ ∃ o ∈ existing, o.fivb_id = r.fivb_id) →
      (importGo freshId existing rows a d n).table = existing ∧
      (importGo freshId existing rows a d n).added = a ∧
      d ≤ (importGo freshId existing rows a d n).skippedDuplicates ∧
      ((∃ r ∈ rows, ¬(stripStr r.first_name = "" ∧ stripStr r.last_name = "")) →
        d + 1 ≤ (importGo freshId existing rows a d n).skippedDuplicates) := by
  induction rows with
  | nil =>
    intro a d n _
    exact ⟨rfl, rfl, Nat.le_refl d,
      fun ⟨r, hr, _⟩ => absurd hr (List.not_mem_nil r)⟩
  | cons r rest ih =>
    intro a d n hdup
    have hr := hdup r (List.mem_cons_self r rest)
    have hrest := fun x hx => hdup x (List.mem_cons_of_mem r hx)
    by_cases hname : (stripStr r.first_name == "" && stripStr r.last_name == "") = true
    · have hstep : importGo freshId existing (r :: rest) a d n =
          importGo freshId existing rest a d (n + 1) := by
        simp [importGo, hname]
      rw [hstep]
      obtain ⟨h1, h2, h3, h4⟩ := ih a d (n + 1) hrest
      refine ⟨h1, h2, h3, ?_⟩
      rintro ⟨r2, hr2, hr2n⟩
      rcases List.mem_cons.mp hr2 with rfl | hr2r
      · rw [Bool.and_eq_true, beq_iff_eq, beq_iff_eq] at hname
        exact absurd hname hr2n
      · exact h4 ⟨r2, hr2r, hr2n⟩
    · have hc : (r.fivb_id != "" && existing.any (fun o => o.fivb_id == r.fivb_id)) = true := by
        obtain ⟨hne, o, ho, hoid⟩ := hr
        rw [Bool.and_eq_true, bne_iff_ne, List.any_eq_true]
        exact ⟨hne, o, ho, by simp [hoid]⟩
      have hstep : importGo freshId existing (r :: rest) a d n =
          importGo freshId existing rest a (d + 1) n := by
        simp [importGo, hname, hc]
      rw [hstep]
      obtain ⟨h1, h2, h3, h4⟩ := ih a (d + 1) n hrest
      exact ⟨h1, h2, Nat.le_trans (Nat.le_succ d) h3, fun _ => h3⟩

/-- Claim C9: importing rows whose non-empty federation identifiers all
already exist among the stored Official rows adds zero new rows (the table
is unchanged) and, as soon as one such row carries a name, reports a
duplicate-skip count of at least one. The import interface is modelled from
the spec, having no implementation under src/. -/
theorem C9_import_duplicate_skip (freshId : Nat → String)
    (existing : List OfficialRow) (rows : List ImportRow)
    (hdup : ∀ r ∈ rows, r.fivb_id ≠ "" ∧ ∃ o ∈ existing, o.fivb_id = r.fivb_id)
    (hname : ∃ r ∈ rows, ¬(stripStr r.first_name = "" ∧ stripStr r.last_name = "")) :
    (importOfficials freshId existing rows).table = existing ∧
    (importOfficials freshId existing rows).added = 0 ∧
    1 ≤ (importOfficials freshId existing rows).skippedDuplicates := by
  obtain ⟨h1, h2, _, h4⟩ := importGo_all_skipped freshId existing rows 0 0 0 hdup
  exact ⟨h1, h2, h4 hname⟩

/-- Claim C9 witness: importing two named rows with federation identifier F1
against a table already holding F1 adds zero rows and skips at least one
duplicate. -/
theorem C9_import_duplicate_skip_witness :
    (importOfficials (fun _ => "new") [annF1Official] [bobImport, calImport]).table
      = [annF1Official] ∧
    (importOfficials (fun _ => "new") [annF1Official] [bobImport, calImport]).added
      = 0 ∧
    1 ≤ (importOfficials (fun _ => "new") [annF1Official]
      [bobImport, calImport]).skippedDuplicates :=
  C9_import_duplicate_skip (fun _ => "new") [annF1Official] [bobImport, calImport]
    (by decide) (by decide)
